import Mathlib

/-!
Verification of the jobs-comparison monitor of the zyte-spidermon repository.

The development shallowly embeds the two source variants of the monitor
(`zyte_spidermon/jobs_comparison.py` and
`zyte_spidermon/monitors/jobs_comparison.py`).  Python job records are
mappings; they are modelled by an explicit record type with optional fields.
Python dicts of spider arguments are modelled by association lists, and the
remote job-list API is an input function from request parameters to the
returned page of records.  A fuel parameter bounds the unbounded `while`
loop; Python exceptions are modelled by explicit error constructors.
Floating point settings values are modelled by exact rationals.
-/

/-- Spider arguments: a Python dict of string keys and values, modelled as an
association list. -/
abbrev Dict := List (String × String)

/-- One historical job record, as returned by the job-list API.  The Python
record is a mapping; `none` models an absent key. -/
structure Job where
  close_reason : Option String
  spider_args : Option Dict
  items : Option Int
deriving DecidableEq

/-- Python dict equality on association lists: the two dicts hold exactly the
same keys and each key maps to the same value. -/
def dictEq (a b : Dict) : Bool :=
  a.all (fun p => b.lookup p.1 = some p.2) && b.all (fun p => a.lookup p.1 = some p.2)

/-- Python truthiness of `job.get("spider_args")`: falsy when the key is
absent or the dict is empty. -/
def spiderArgsFalsy (j : Job) : Bool :=
  match j.spider_args with
  | none => true
  | some sa => sa.isEmpty

/-- `ZyteJobsComparisonMonitor._has_desired_args` (monitors variant,
lines 150-160).  `none` models the `KeyError` raised by
`job["spider_args"]` when the key is absent and `args` is non-empty. -/
def has_desired_args (j : Job) (args : Dict) : Option Bool :=
  if args.isEmpty && spiderArgsFalsy j then
    some true
  else if args.isEmpty && !(spiderArgsFalsy j) then
    some false
  else
    match j.spider_args with
    | none => none
    | some sa =>
      if !(args.all (fun p => (sa.map Prod.fst).contains p.1)) then
        some false
      else
        some (dictEq args sa)

/-- The close-reason test inside the pagination loop: the record is kept when
`close_reasons` is empty or the record close_reason is a member.  A record
with no close_reason is never a member (Python: `None not in close_reasons`). -/
def passesCloseReason (crs : List String) (j : Job) : Bool :=
  crs.isEmpty ||
    (match j.close_reason with
     | some r => crs.contains r
     | none => false)

/-- The `for job in current_jobs` body of the monitors variant
(lines 105-112): close-reason filter, then (when enabled) the argument
filter; `Except.error` models the `KeyError` that `_has_desired_args` can
raise. -/
def processPage (crs : List String) (argsEnabled : Bool) (args : Dict) :
    List Job → Except Unit (List Job)
  | [] => .ok []
  | j :: rest =>
    if passesCloseReason crs j = false then
      processPage crs argsEnabled args rest
    else if argsEnabled then
      match has_desired_args j args with
      | none => .error ()
      | some false => processPage crs argsEnabled args rest
      | some true =>
        match processPage crs argsEnabled args rest with
        | .error e => .error e
        | .ok l => .ok (j :: l)
    else
      match processPage crs argsEnabled args rest with
      | .error e => .error e
      | .ok l => .ok (j :: l)

/-- The `for job in current_jobs` body of the plain variant (lines 100-103):
only the close-reason filter. -/
def processPagePlain (crs : List String) : List Job → List Job
  | [] => []
  | j :: rest =>
    if passesCloseReason crs j = false then processPagePlain crs rest
    else j :: processPagePlain crs rest

/-- Record of one job-list API call made by the pagination loop: the start
offset, the requested count, the number of records the page returned, and the
number of qualifying jobs accumulated after processing the page. -/
structure CallRec where
  start : Nat
  reqCount : Int
  pageLen : Nat
  totalAfter : Nat
deriving DecidableEq

/-- The loop exit test (monitors variant line 114, plain variant line 105):
`len(current_jobs) < MAX_API_COUNT or len(total_jobs) >= number_of_jobs`. -/
def stopB (N : Int) (c : CallRec) : Bool :=
  decide (c.pageLen < 1000) || decide (N ≤ (c.totalAfter : Int))

/-- Python exceptions that the embedded code can raise. -/
inductive PyErr where
  | jsonDecode
  | keyError
  | nameError
  | zeroDivision
  | notConfiguredTarget
  | notConfiguredThreshold
deriving DecidableEq

/-- Result of the pagination loop: fuel exhaustion of the model, a raised
exception, or the accumulated qualifying jobs, each together with the trace
of API calls. -/
inductive FetchOut where
  | outOfFuel
  | raised (e : PyErr) (calls : List CallRec)
  | ok (jobs : List Job) (calls : List CallRec)
deriving DecidableEq

/-- True unless the fuel of the model ran out: the source loop itself
finished (normally or by an exception). -/
def FetchOut.completed : FetchOut → Bool
  | .outOfFuel => false
  | _ => true

/-- The `has_tag=tags or None` argument of the API call: an empty resolved
tag list sends no tag filter. -/
def hasTagParam (tags : List String) : Option (List String) :=
  if tags.isEmpty then none else some tags

/-- Python `sorted` on strings. -/
def sortTags (l : List String) : List String :=
  List.insertionSort (fun a b => a ≤ b) l

/-- The parsed `SHUB_JOB_DATA` environment value: `none` when the variable is
unset; otherwise `Except.error` when `json.loads` fails, or the optional
`tags` field of the parsed object. -/
abbrev EnvT := Option (Except Unit (Option (List String)))

/-- `ZyteJobsComparisonMonitor._get_tags_to_filter` (monitors variant,
lines 122-136): the sorted intersection of the configured desired tags with
the tags of the current job.  An unset environment variable parses as `{}`
(no tags); a malformed value makes `json.loads` raise, modelled by
`Except.error`. -/
def get_tags_to_filter (desired : List String) (env : EnvT) :
    Except Unit (List String) :=
  if desired.isEmpty then .ok []
  else
    match env with
    | none => .ok []
    | some (.error e) => .error e
    | some (.ok none) => .ok []
    | some (.ok (some ts)) =>
      if ts.isEmpty then .ok []
      else .ok (sortTags ((desired.filter (fun t => ts.contains t)).dedup))

/-- `_get_tags_to_filter` of the plain variant (lines 111-124); the source
differs only in wrapping `sorted(...)` in a redundant `list(...)`. -/
def get_tags_to_filter_plain (desired : List String) (env : EnvT) :
    Except Unit (List String) :=
  if desired.isEmpty then .ok []
  else
    match env with
    | none => .ok []
    | some (.error e) => .error e
    | some (.ok none) => .ok []
    | some (.ok (some ts)) =>
      if ts.isEmpty then .ok []
      else .ok (sortTags ((desired.filter (fun t => ts.contains t)).dedup))

/-- The job-list API: `client.spider.jobs.list(start=, state=, count=,
has_tag=)` returns one page of job records. -/
abbrev Api := Nat → List String → Int → Option (List String) → List Job

/-- The `while True` pagination loop of the monitors variant `_get_jobs`
(lines 94-120), parameterized by the resolved filters.  Each iteration
requests `count = min(number_of_jobs - len(total_jobs), 1000)` records at the
current start offset, filters the page client-side, and exits when the page
held fewer than 1000 records or the accumulated qualifying jobs reached
`number_of_jobs`; otherwise the start offset advances by the page length. -/
def getJobsLoop (api : Api) (states tags crs : List String) (argsEnabled : Bool)
    (args : Dict) (N : Int) : Nat → Nat → List Job → FetchOut
  | 0, _, _ => .outOfFuel
  | fuel + 1, start, total =>
    let count : Int := min (N - (total.length : Int)) 1000
    let page := api start states count (hasTagParam tags)
    match processPage crs argsEnabled args page with
    | .error _ => .raised .keyError [⟨start, count, page.length, total.length⟩]
    | .ok kept =>
      let total' := total ++ kept
      let c : CallRec := ⟨start, count, page.length, total'.length⟩
      if stopB N c then .ok total' [c]
      else
        match getJobsLoop api states tags crs argsEnabled args N fuel
            (start + page.length) total' with
        | .outOfFuel => .outOfFuel
        | .raised e calls => .raised e (c :: calls)
        | .ok jobs calls => .ok jobs (c :: calls)

/-- The `while True` pagination loop of the plain variant `_get_jobs`
(lines 87-109): identical except that the loop body applies no argument
filter.  (The `raised` arm of the recursion is unreachable: the plain body
raises nothing.) -/
def getJobsLoopPlain (api : Api) (states tags crs : List String) (N : Int) :
    Nat → Nat → List Job → FetchOut
  | 0, _, _ => .outOfFuel
  | fuel + 1, start, total =>
    let count : Int := min (N - (total.length : Int)) 1000
    let page := api start states count (hasTagParam tags)
    let total' := total ++ processPagePlain crs page
    let c : CallRec := ⟨start, count, page.length, total'.length⟩
    if stopB N c then .ok total' [c]
    else
      match getJobsLoopPlain api states tags crs N fuel
          (start + page.length) total' with
      | .outOfFuel => .outOfFuel
      | .raised e calls => .raised e (c :: calls)
      | .ok jobs calls => .ok jobs (c :: calls)

/-- The settings store consulted by the monitor.  `none` models an absent
key; the required integer and float settings carry typed values, the optional
list settings carry their `getlist`, `getdict` and `getbool` results. -/
structure Settings where
  jobsComparison : Option Int
  threshold : Option ℚ
  states : Option (List String)
  tags : List String
  closeReasons : List String
  arguments : Dict
  argumentsEnabled : Bool

/-- `_get_jobs` of the monitors variant (lines 79-120) with the two argument
settings read as the settings documented by the class docstring
(`SPIDERMON_JOBS_COMPARISON_ARGUMENTS` and
`SPIDERMON_JOBS_COMPARISON_ARGUMENTS_ENABLED`); see `get_jobs_strict` for
the behaviour of the module as written, where these constants are undefined
names. -/
def get_jobs (s : Settings) (env : EnvT) (api : Api) (states : List String)
    (N : Int) (fuel : Nat) : FetchOut :=
  match get_tags_to_filter s.tags env with
  | .error _ => .raised .jsonDecode []
  | .ok tags =>
    getJobsLoop api states tags s.closeReasons s.argumentsEnabled s.arguments
      N fuel 0 []

/-- `_get_jobs` of the monitors variant exactly as written: after resolving
the tag filter it evaluates `self._get_args_to_filter()`, whose body reads
the module constant `SPIDERMON_JOBS_COMPARISON_ARGUMENTS`; that name (and
`SPIDERMON_JOBS_COMPARISON_ARGUMENTS_ENABLED` on the next lookup) is never
defined in `monitors/jobs_comparison.py`, so the call raises `NameError`
before any API request. -/
def get_jobs_strict (s : Settings) (env : EnvT) (_api : Api)
    (_states : List String) (_N : Int) (_fuel : Nat) : FetchOut :=
  match get_tags_to_filter s.tags env with
  | .error _ => .raised .jsonDecode []
  | .ok _ => .raised .nameError []

/-- `_get_jobs` of the plain variant (lines 76-109). -/
def get_jobs_plain (s : Settings) (env : EnvT) (api : Api)
    (states : List String) (N : Int) (fuel : Nat) : FetchOut :=
  match get_tags_to_filter_plain s.tags env with
  | .error _ => .raised .jsonDecode []
  | .ok tags =>
    getJobsLoopPlain api states tags s.closeReasons N fuel 0 []

/-- `previous_count`: the arithmetic mean of the `items` counts of the
qualifying jobs (`job.get("items", 0)` defaults a missing count to 0). -/
def jobsMean (jobs : List Job) : ℚ :=
  ((jobs.map (fun j => j.items.getD 0)).sum : ℚ) / (jobs.length : ℚ)

/-- Result of `get_threshold` or `run`: fuel exhaustion, a raised exception,
or the computed integer baseline, together with the API calls made. -/
inductive ThreshOut where
  | outOfFuel
  | raised (e : PyErr) (calls : List CallRec)
  | ok (v : Int) (calls : List CallRec)
deriving DecidableEq

/-- `get_threshold` of the monitors variant (lines 162-176) over the intent
reading of `_get_jobs` (see `get_jobs`): resolve the target count, threshold
and states settings, fetch the qualifying jobs, and return
`math.ceil(previous_count * threshold)`.  With zero qualifying jobs the mean
divides by zero, modelled by `PyErr.zeroDivision`.  As written the monitors
variant never reaches this computation: see `get_threshold_strict`. -/
def get_threshold (s : Settings) (env : EnvT) (api : Api) (fuel : Nat) :
    ThreshOut :=
  match get_jobs s env api (s.states.getD ["finished"]) (s.jobsComparison.getD 0)
      fuel with
  | .outOfFuel => .outOfFuel
  | .raised e calls => .raised e calls
  | .ok jobs calls =>
    if jobs.isEmpty then .raised .zeroDivision calls
    else .ok ⌈jobsMean jobs * s.threshold.getD 0⌉ calls

/-- `get_threshold` of the plain variant (lines 126-140). -/
def get_threshold_plain (s : Settings) (env : EnvT) (api : Api) (fuel : Nat) :
    ThreshOut :=
  match get_jobs_plain s env api (s.states.getD ["finished"])
      (s.jobsComparison.getD 0) fuel with
  | .outOfFuel => .outOfFuel
  | .raised e calls => .raised e calls
  | .ok jobs calls =>
    if jobs.isEmpty then .raised .zeroDivision calls
    else .ok ⌈jobsMean jobs * s.threshold.getD 0⌉ calls

/-- `get_threshold` of the monitors variant exactly as written: its call to
`self._get_jobs(states, number_of_jobs)` resolves the tag filter (which can
itself raise the JSON decode error) and then raises `NameError` on the
undefined argument-setting constants, so no API request is made and the
mean/ceiling computation is never reached. -/
def get_threshold_strict (s : Settings) (env : EnvT) (api : Api) (fuel : Nat) :
    ThreshOut :=
  match get_jobs_strict s env api (s.states.getD ["finished"])
      (s.jobsComparison.getD 0) fuel with
  | .outOfFuel => .outOfFuel
  | .raised e calls => .raised e calls
  | .ok jobs calls =>
    if jobs.isEmpty then .raised .zeroDivision calls
    else .ok ⌈jobsMean jobs * s.threshold.getD 0⌉ calls

/-- `run` of the monitors variant (lines 58-77): raise `NotConfigured` when
the target-count setting is absent or not positive, then when the threshold
setting is absent or not positive; otherwise defer to the framework, which
evaluates the monitor via `get_threshold`. -/
def run (s : Settings) (env : EnvT) (api : Api) (fuel : Nat) : ThreshOut :=
  if s.jobsComparison.isNone || decide (s.jobsComparison.getD 0 ≤ 0) then
    .raised .notConfiguredTarget []
  else if s.threshold.isNone || decide (s.threshold.getD 0 ≤ 0) then
    .raised .notConfiguredThreshold []
  else get_threshold s env api fuel

/-- A remote job store holding the finite list `db` of records: a request
returns the records from the start offset, capped at the requested count. -/
def dbApi (db : List Job) : Api :=
  fun start _ count _ => (db.drop start).take count.toNat

/-- Well-formedness of a call trace with respect to target `N`: every call
except the last fails the exit test and is followed by a call whose start
offset advanced by the returned page length and whose requested count is
`min(N - accumulated, 1000)`; the final call passes the exit test. -/
def callsWellFormed (N : Int) : List CallRec → Bool
  | [] => false
  | [c] => stopB N c
  | c :: c2 :: rest =>
    !(stopB N c) && decide (c2.start = c.start + c.pageLen) &&
      decide (c2.reqCount = min (N - (c.totalAfter : Int)) 1000) &&
      callsWellFormed N (c2 :: rest)

/-- A finished job record used in concrete checks. -/
def jobFin : Job := ⟨some "finished", none, some 10⟩

/-- A cancelled job record used in concrete checks. -/
def jobCan : Job := ⟨some "cancelled", none, some 20⟩

/-- A second cancelled job record used in concrete checks. -/
def jobCan2 : Job := ⟨some "cancelled", none, some 30⟩

/-- A finished job with 100 items. -/
def j100 : Job := ⟨some "finished", none, some 100⟩

/-- A finished job with 200 items. -/
def j200 : Job := ⟨some "finished", none, some 200⟩

/-- A finished job with 300 items. -/
def j300 : Job := ⟨some "finished", none, some 300⟩

/-- A remote API with no records at all. -/
def apiEmpty : Api := fun _ _ _ _ => []

/-- A remote API holding two records, one finished and one cancelled. -/
def apiTwo : Api := fun start _ _ _ => if start = 0 then [jobFin, jobCan] else []

/-- A remote API holding three records, honouring the requested count. -/
def apiThree : Api := fun start _ count _ =>
  if start = 0 then [jobFin, jobCan, jobCan2].take count.toNat else []

/-- A remote API holding three finished records with 100, 200 and 300 items. -/
def apiItems : Api := fun start _ _ _ => if start = 0 then [j100, j200, j300] else []

/-- A settings store with every key absent or empty. -/
def sNone : Settings := ⟨none, none, none, [], [], [], false⟩

/-- A settings store with target count 3 and threshold 0.9. -/
def sC5 : Settings := ⟨some 3, some ((9 : ℚ) / 10), none, [], [], [], false⟩

/-- A settings store with target count 1 and threshold 1. -/
def sC8 : Settings := ⟨some 1, some 1, none, [], [], [], false⟩

/-! ### Helper lemmas -/

theorem sortTags_sorted (l : List String) :
    (sortTags l).Sorted (fun a b => a ≤ b) :=
  List.sorted_insertionSort _ l

theorem sortTags_mem (a : String) (l : List String) :
    a ∈ sortTags l ↔ a ∈ l :=
  (List.perm_insertionSort _ l).mem_iff

theorem sortTags_nodup {l : List String} (h : l.Nodup) :
    (sortTags l).Nodup :=
  (List.perm_insertionSort _ l).nodup_iff.mpr h

theorem processPage_false_eq (crs : List String) (args : Dict) :
    ∀ page : List Job,
      processPage crs false args page = .ok (processPagePlain crs page) := by
  intro page
  induction page with
  | nil => rfl
  | cons j rest ih =>
    simp only [processPage, processPagePlain]
    by_cases hc : passesCloseReason crs j = false
    · simp [hc, ih]
    · simp [hc, ih]

theorem processPage_ok_length (crs : List String) (en : Bool) (args : Dict) :
    ∀ page kept, processPage crs en args page = .ok kept →
      kept.length ≤ page.length := by
  intro page
  induction page with
  | nil =>
    intro kept h
    simp only [processPage, Except.ok.injEq] at h
    subst h
    simp
  | cons j rest ih =>
    intro kept h
    simp only [processPage] at h
    split at h
    · exact le_trans (ih kept h) (by simp)
    · split at h
      · split at h
        · exact absurd h (by simp)
        · exact le_trans (ih kept h) (by simp)
        · split at h
          · exact absurd h (by simp)
          · rename_i l hl
            simp only [Except.ok.injEq] at h
            subst h
            simpa using ih l hl
      · split at h
        · exact absurd h (by simp)
        · rename_i l hl
          simp only [Except.ok.injEq] at h
          subst h
          simpa using ih l hl

theorem getJobsLoop_ok_head (api : Api) (states tags crs : List String)
    (en : Bool) (args : Dict) (N : Int) :
    ∀ fuel start total jobs calls,
      getJobsLoop api states tags crs en args N fuel start total = .ok jobs calls →
      ∃ c rest, calls = c :: rest ∧ c.start = start ∧
        c.reqCount = min (N - (total.length : Int)) 1000 := by
  intro fuel
  induction fuel with
  | zero =>
    intro start total jobs calls h
    simp [getJobsLoop] at h
  | succ fuel ih =>
    intro start total jobs calls h
    simp only [getJobsLoop] at h
    split at h
    · exact absurd h (by simp)
    · split at h
      · simp only [FetchOut.ok.injEq] at h
        exact ⟨_, [], h.2.symm, rfl, rfl⟩
      · split at h
        · exact absurd h (by simp)
        · exact absurd h (by simp)
        · rename_i jobs2 calls2 heq
          simp only [FetchOut.ok.injEq] at h
          exact ⟨_, calls2, h.2.symm, rfl, rfl⟩

theorem getJobsLoop_ok_wellFormed (api : Api) (states tags crs : List String)
    (en : Bool) (args : Dict) (N : Int) :
    ∀ fuel start total jobs calls,
      getJobsLoop api states tags crs en args N fuel start total = .ok jobs calls →
      callsWellFormed N calls = true := by
  intro fuel
  induction fuel with
  | zero =>
    intro start total jobs calls h
    simp [getJobsLoop] at h
  | succ fuel ih =>
    intro start total jobs calls h
    simp only [getJobsLoop] at h
    split at h
    · exact absurd h (by simp)
    · rename_i kept hkept
      split at h
      · rename_i hstop
        simp only [FetchOut.ok.injEq] at h
        obtain ⟨h1, h2⟩ := h
        subst h2
        simpa [callsWellFormed] using hstop
      · rename_i hstop
        split at h
        · exact absurd h (by simp)
        · exact absurd h (by simp)
        · rename_i jobs2 calls2 heq
          simp only [FetchOut.ok.injEq] at h
          obtain ⟨h1, h2⟩ := h
          subst h2
          have hwf := ih _ _ _ _ heq
          obtain ⟨c2, rest2, hc2, hstart2, hreq2⟩ :=
            getJobsLoop_ok_head api states tags crs en args N fuel _ _ _ _ heq
          subst hc2
          simp only [Bool.not_eq_true] at hstop
          simp only [List.length_append] at hstop hreq2
          simp [callsWellFormed, hstop, hstart2, hreq2, hwf]

theorem getJobsLoop_ok_last (api : Api) (states tags crs : List String)
    (en : Bool) (args : Dict) (N : Int) :
    ∀ fuel start total jobs calls,
      getJobsLoop api states tags crs en args N fuel start total = .ok jobs calls →
      ∃ c, calls.getLast? = some c ∧ stopB N c = true ∧ c.totalAfter = jobs.length := by
  intro fuel
  induction fuel with
  | zero =>
    intro start total jobs calls h
    simp [getJobsLoop] at h
  | succ fuel ih =>
    intro start total jobs calls h
    simp only [getJobsLoop] at h
    split at h
    · exact absurd h (by simp)
    · rename_i kept hkept
      split at h
      · rename_i hstop
        simp only [FetchOut.ok.injEq] at h
        obtain ⟨h1, h2⟩ := h
        subst h2
        exact ⟨_, rfl, hstop, by simp [h1]⟩
      · rename_i hstop
        split at h
        · exact absurd h (by simp)
        · exact absurd h (by simp)
        · rename_i jobs2 calls2 heq
          simp only [FetchOut.ok.injEq] at h
          obtain ⟨h1, h2⟩ := h
          subst h2
          obtain ⟨c2, hlast, hstop2, htot⟩ := ih _ _ _ _ heq
          cases calls2 with
          | nil => simp at hlast
          | cons d t =>
            refine ⟨c2, ?_, hstop2, by simp [htot, h1]⟩
            rw [List.getLast?_cons_cons]
            exact hlast

theorem getJobsLoop_ok_le (api : Api) (states tags crs : List String)
    (en : Bool) (args : Dict) (N : Int)
    (hAPI : ∀ st sts c t, 0 < c → ((api st sts c t).length : Int) ≤ c) :
    ∀ fuel start total jobs calls,
      (total.length : Int) < N →
      getJobsLoop api states tags crs en args N fuel start total = .ok jobs calls →
      (jobs.length : Int) ≤ N := by
  intro fuel
  induction fuel with
  | zero =>
    intro start total jobs calls _ h
    simp [getJobsLoop] at h
  | succ fuel ih =>
    intro start total jobs calls htot h
    simp only [getJobsLoop] at h
    have hpage : ((api start states (min (N - (total.length : Int)) 1000)
        (hasTagParam tags)).length : Int) ≤ min (N - (total.length : Int)) 1000 :=
      hAPI _ _ _ _ (lt_min_iff.mpr ⟨by linarith, by norm_num⟩)
    have hmin : min (N - (total.length : Int)) 1000 ≤ N - (total.length : Int) :=
      min_le_left _ _
    split at h
    · exact absurd h (by simp)
    · rename_i kept hkept
      have hkl : kept.length ≤ (api start states (min (N - (total.length : Int)) 1000)
          (hasTagParam tags)).length :=
        processPage_ok_length _ _ _ _ _ hkept
      have hkl2 : (kept.length : Int) ≤ ((api start states
          (min (N - (total.length : Int)) 1000) (hasTagParam tags)).length : Int) := by
        exact_mod_cast hkl
      split at h
      · rename_i hstop
        simp only [FetchOut.ok.injEq] at h
        obtain ⟨h1, h2⟩ := h
        subst h1
        simp only [List.length_append]
        push_cast
        linarith
      · rename_i hstop
        split at h
        · exact absurd h (by simp)
        · exact absurd h (by simp)
        · rename_i jobs2 calls2 heq
          simp only [FetchOut.ok.injEq] at h
          obtain ⟨h1, h2⟩ := h
          subst h1
          refine ih _ _ _ _ ?_ heq
          simp only [stopB, Bool.or_eq_true, decide_eq_true_eq, not_or] at hstop
          exact not_le.mp hstop.2

theorem getJobsLoop_false_eq_plain (api : Api) (states tags crs : List String)
    (args : Dict) (N : Int) :
    ∀ fuel start total,
      getJobsLoop api states tags crs false args N fuel start total =
        getJobsLoopPlain api states tags crs N fuel start total := by
  intro fuel
  induction fuel with
  | zero => intro start total; rfl
  | succ fuel ih =>
    intro start total
    simp only [getJobsLoop, getJobsLoopPlain, processPage_false_eq]
    rw [ih]

theorem getJobsLoop_db_completed (db : List Job) (states tags crs : List String)
    (en : Bool) (args : Dict) (N : Int) :
    ∀ fuel start total, db.length - start < fuel →
      (getJobsLoop (dbApi db) states tags crs en args N fuel start total).completed
        = true := by
  intro fuel
  induction fuel with
  | zero =>
    intro start total h
    exact absurd h (Nat.not_lt_zero _)
  | succ fuel ih =>
    intro start total hf
    simp only [getJobsLoop]
    split
    · rfl
    · rename_i kept hkept
      split
      · rfl
      · rename_i hstop
        have hlen : (dbApi db start states (min (N - (total.length : Int)) 1000)
            (hasTagParam tags)).length ≤ db.length - start := by
          simp only [dbApi, List.length_take, List.length_drop]
          exact min_le_right _ _
        simp only [stopB, Bool.or_eq_true, decide_eq_true_eq, not_or] at hstop
        have hs1 : 1000 ≤ (dbApi db start states (min (N - (total.length : Int)) 1000)
            (hasTagParam tags)).length := not_lt.mp hstop.1
        have hc := ih (start + (dbApi db start states (min (N - (total.length : Int)) 1000)
            (hasTagParam tags)).length) (total ++ kept) (by omega)
        rcases hrec : getJobsLoop (dbApi db) states tags crs en args N fuel
            (start + (dbApi db start states (min (N - (total.length : Int)) 1000)
              (hasTagParam tags)).length) (total ++ kept) with _ | ⟨e, calls⟩ | ⟨jobs, calls⟩
        · rw [hrec] at hc
          simp [FetchOut.completed] at hc
        · rfl
        · rfl

theorem get_tags_plain_eq (d : List String) (env : EnvT) :
    get_tags_to_filter_plain d env = get_tags_to_filter d env := rfl

/-! ### Claims -/

/-- C1: for every settings store in which the target-job-count setting is
absent or not positive, or the threshold setting is absent or not positive,
`run` raises `NotConfigured` with an empty API-call trace (so before any
job-API call), and the target-count check fires before the threshold
check. -/
theorem C1_run_not_configured (s : Settings) (env : EnvT) (api : Api) (fuel : Nat)
    (h : (s.jobsComparison = none ∨ s.jobsComparison.getD 0 ≤ 0) ∨
      (s.threshold = none ∨ s.threshold.getD 0 ≤ 0)) :
    ((s.jobsComparison = none ∨ s.jobsComparison.getD 0 ≤ 0) →
      run s env api fuel = .raised .notConfiguredTarget []) ∧
    (¬(s.jobsComparison = none ∨ s.jobsComparison.getD 0 ≤ 0) →
      run s env api fuel = .raised .notConfiguredThreshold []) := by
  constructor
  · intro ht
    have hc : (s.jobsComparison.isNone || decide (s.jobsComparison.getD 0 ≤ 0)) = true := by
      rcases ht with h1 | h2
      · simp [h1]
      · simp [h2]
    simp [run, hc]
  · intro ht
    push_neg at ht
    have hbad : s.threshold = none ∨ s.threshold.getD 0 ≤ 0 := by
      rcases h with h1 | h2
      · exact absurd h1 (by push_neg; exact ht)
      · exact h2
    have hc1 : (s.jobsComparison.isNone || decide (s.jobsComparison.getD 0 ≤ 0)) = false := by
      have h1 : s.jobsComparison.isNone = false := by
        cases hj : s.jobsComparison with
        | none => exact absurd hj ht.1
        | some v => rfl
      have h2 : decide (s.jobsComparison.getD 0 ≤ 0) = false :=
        decide_eq_false (not_le.mpr ht.2)
      simp [h1, h2]
    have hc2 : (s.threshold.isNone || decide (s.threshold.getD 0 ≤ 0)) = true := by
      rcases hbad with hb | hb
      · simp [hb]
      · simp [hb]
    simp [run, hc1, hc2]

/-- C1 witness: with every setting absent, `run` raises the target-count
`NotConfigured` and no API call is recorded. -/
theorem C1_witness :
    run sNone none apiEmpty 2 = .raised .notConfiguredTarget [] :=
  (C1_run_not_configured sNone none apiEmpty 2 (Or.inl (Or.inl rfl))).1 (Or.inl rfl)

/-- C2 counterexample: the pagination loop can stop after a page that
returned exactly the requested count (2 records requested at start 0, 2
returned) while the qualifying total (1, after close-reason filtering) is
still below the target 2 — neither of the two stopping conditions of the
claim holds, yet the loop issues no further call.  The loop in the source
compares the page length against the fixed constant 1000, not against the
requested count. -/
theorem C2_counterexample :
    getJobsLoop apiTwo ["finished"] [] ["finished"] false [] 2 3 0 [] =
      .ok [jobFin] [⟨0, 2, 2, 1⟩] ∧
    ¬(((⟨0, 2, 2, 1⟩ : CallRec).pageLen : Int) < (⟨0, 2, 2, 1⟩ : CallRec).reqCount ∨
      (2 : Int) ≤ ((⟨0, 2, 2, 1⟩ : CallRec).totalAfter : Int)) :=
  ⟨by decide, by decide⟩

/-- C2 (amended): the pagination loop stops exactly when the most recent
page returned fewer than 1000 records (the fixed `MAX_API_COUNT`, regardless
of the possibly smaller requested count) or the accumulated qualifying jobs
reached the target; every continued iteration issues the next call with the
start offset increased by the number of records the page returned and with
requested count `min(target - accumulated, 1000)`; the first call starts at
offset 0 with requested count `min(target, 1000)`. -/
theorem C2_pagination_amended (api : Api) (states tags crs : List String)
    (en : Bool) (args : Dict) (N : Int) (fuel : Nat) (jobs : List Job)
    (calls : List CallRec)
    (h : getJobsLoop api states tags crs en args N fuel 0 [] = .ok jobs calls) :
    callsWellFormed N calls = true ∧
    ∃ c rest, calls = c :: rest ∧ c.start = 0 ∧ c.reqCount = min N 1000 := by
  refine ⟨getJobsLoop_ok_wellFormed api states tags crs en args N fuel 0 [] jobs calls h, ?_⟩
  obtain ⟨c, rest, hc, hstart, hreq⟩ :=
    getJobsLoop_ok_head api states tags crs en args N fuel 0 [] jobs calls h
  exact ⟨c, rest, hc, hstart, by simpa using hreq⟩

/-- C2 witness: a concrete one-page run whose trace satisfies the amended
trace discipline. -/
theorem C2_amended_witness :
    callsWellFormed 1 [⟨0, 1, 0, 0⟩] = true ∧
    ∃ c rest, ([⟨0, 1, 0, 0⟩] : List CallRec) = c :: rest ∧ c.start = 0 ∧
      c.reqCount = min (1 : Int) 1000 :=
  C2_pagination_amended apiEmpty [] [] [] false [] 1 2 [] [⟨0, 1, 0, 0⟩] (by decide)

/-- C3 counterexample: with target 3 and an API honouring the requested
count, one call requests 3 records, receives exactly 3 (never fewer than
requested, so the remote API is not signalled as exhausted), yet after
close-reason filtering only 1 qualifying job is returned — fewer than the
target even though no page returned fewer records than requested. -/
theorem C3_counterexample :
    getJobsLoop apiThree ["finished"] [] ["finished"] false [] 3 4 0 [] =
      .ok [jobFin] [⟨0, 3, 3, 1⟩] ∧
    (([jobFin] : List Job).length : Int) < 3 ∧
    ([⟨0, 3, 3, 1⟩] : List CallRec).all
      (fun c => decide ((c.pageLen : Int) = c.reqCount)) = true :=
  ⟨by decide, by decide, by decide⟩

/-- C3 (amended): when every page holds at most the requested count of
records and the target is positive, the fetcher returns at most the target
number of qualifying jobs, and it returns fewer than the target only if the
final page returned fewer than 1000 records (the fixed `MAX_API_COUNT`, not
necessarily fewer than the requested count of that call). -/
theorem C3_fetch_bound_amended (api : Api) (states tags crs : List String)
    (en : Bool) (args : Dict) (N : Int) (fuel : Nat) (jobs : List Job)
    (calls : List CallRec)
    (hAPI : ∀ st sts c t, 0 < c → ((api st sts c t).length : Int) ≤ c)
    (hN : 0 < N)
    (h : getJobsLoop api states tags crs en args N fuel 0 [] = .ok jobs calls) :
    (jobs.length : Int) ≤ N ∧
    ((jobs.length : Int) < N →
      ∃ c, calls.getLast? = some c ∧ c.pageLen < 1000) := by
  constructor
  · exact getJobsLoop_ok_le api states tags crs en args N hAPI fuel 0 [] jobs
      calls (by simpa using hN) h
  · intro hlt
    obtain ⟨c, hlast, hstop, htot⟩ :=
      getJobsLoop_ok_last api states tags crs en args N fuel 0 [] jobs calls h
    refine ⟨c, hlast, ?_⟩
    simp only [stopB, Bool.or_eq_true, decide_eq_true_eq] at hstop
    rcases hstop with h1 | h2
    · exact h1
    · exfalso
      rw [htot] at h2
      omega

/-- C3 witness: the empty API satisfies the page bound; a one-call run
returns 0 ≤ 1 jobs and its final page held fewer than 1000 records. -/
theorem C3_witness :
    ((([] : List Job).length : Int) ≤ 1) ∧
    ((([] : List Job).length : Int) < 1 →
      ∃ c, ([⟨0, 1, 0, 0⟩] : List CallRec).getLast? = some c ∧ c.pageLen < 1000) :=
  C3_fetch_bound_amended apiEmpty [] [] [] false [] 1 2 [] [⟨0, 1, 0, 0⟩]
    (fun st sts c t hc => by simp [apiEmpty]; omega) (by norm_num) (by decide)

/-- C4: for every job record and desired-arguments dict, `_has_desired_args`
returns True when the dict is empty and the record spider_args is absent or
empty; returns False when the dict is empty but the record spider_args is
non-empty; and for a non-empty dict it returns True exactly when the record
has a spider_args dict containing every desired key and equal, as a dict, to
the desired arguments (so a strict superset is excluded; an absent
spider_args key makes the lookup raise, which also never passes). -/
theorem C4_has_desired_args_spec (j : Job) (args : Dict) :
    (args = [] → spiderArgsFalsy j = true → has_desired_args j args = some true) ∧
    (args = [] → spiderArgsFalsy j = false → has_desired_args j args = some false) ∧
    (args ≠ [] →
      (has_desired_args j args = some true ↔
        ∃ sa, j.spider_args = some sa ∧
          args.all (fun p => (sa.map Prod.fst).contains p.1) = true ∧
          dictEq args sa = true)) := by
  refine ⟨?_, ?_, ?_⟩
  · intro h1 h2
    simp [has_desired_args, h1, h2]
  · intro h1 h2
    simp [has_desired_args, h1, h2]
  · intro h1
    obtain ⟨cr, sargs, it⟩ := j
    cases args with
    | nil => exact absurd rfl h1
    | cons a l =>
      cases sargs with
      | none =>
        constructor
        · intro hcontra
          exact Option.noConfusion (hcontra : (none : Option Bool) = some true)
        · rintro ⟨sa2, hsa2, _, _⟩
          exact Option.noConfusion (hsa2 : (none : Option Dict) = some sa2)
      | some sa =>
        by_cases hall : (a :: l).all (fun p => (sa.map Prod.fst).contains p.1) = true
        · have hval : has_desired_args ⟨cr, some sa, it⟩ (a :: l) =
              some (dictEq (a :: l) sa) := by
            show (if (!(a :: l).all fun p => (sa.map Prod.fst).contains p.1) = true
                then some false else some (dictEq (a :: l) sa)) =
              some (dictEq (a :: l) sa)
            rw [hall]
            rfl
          rw [hval]
          constructor
          · intro hd
            exact ⟨sa, rfl, hall, Option.some.inj hd⟩
          · rintro ⟨sa2, hsa2, _, hdeq⟩
            have hss : sa = sa2 := Option.some.inj (hsa2 : some sa = some sa2)
            subst hss
            rw [hdeq]
        · rw [Bool.not_eq_true] at hall
          have hval : has_desired_args ⟨cr, some sa, it⟩ (a :: l) = some false := by
            show (if (!(a :: l).all fun p => (sa.map Prod.fst).contains p.1) = true
                then some false else some (dictEq (a :: l) sa)) = some false
            rw [hall]
            rfl
          rw [hval]
          constructor
          · intro hcontra
            exact Bool.noConfusion (Option.some.inj hcontra)
          · rintro ⟨sa2, hsa2, hall2, _⟩
            have hss : sa = sa2 := Option.some.inj (hsa2 : some sa = some sa2)
            subst hss
            rw [hall] at hall2
            exact Bool.noConfusion hall2

/-- C4 witness: a record whose spider_args is a strict superset of the
desired arguments does not satisfy the pass condition. -/
theorem C4_witness :
    (([("k", "v")] : Dict) ≠ []) ∧
    (has_desired_args ⟨none, some [("k", "v"), ("e", "1")], none⟩ [("k", "v")] =
        some true ↔
      ∃ sa, (⟨none, some [("k", "v"), ("e", "1")], none⟩ : Job).spider_args =
          some sa ∧
        ([("k", "v")] : Dict).all (fun p => (sa.map Prod.fst).contains p.1) = true ∧
        dictEq [("k", "v")] sa = true) :=
  ⟨by decide,
    (C4_has_desired_args_spec ⟨none, some [("k", "v"), ("e", "1")], none⟩
      [("k", "v")]).2.2 (by decide)⟩

theorem get_threshold_ok_mean (s : Settings) (env : EnvT) (api : Api)
    (fuel : Nat) (jobs : List Job) (calls : List CallRec)
    (_hthr : 0 < s.threshold.getD 0)
    (hne : jobs ≠ [])
    (h : get_jobs s env api (s.states.getD ["finished"])
        (s.jobsComparison.getD 0) fuel = .ok jobs calls) :
    get_threshold s env api fuel = .ok ⌈jobsMean jobs * s.threshold.getD 0⌉ calls := by
  unfold get_threshold
  rw [h]
  simp [List.isEmpty_iff, hne]

/-- C5: the claim describes the documented intent, but the monitors
`get_threshold` as written cannot return the ceiling of mean times
threshold for any input: `_get_jobs` raises `NameError` on the undefined
argument-setting constants before any API call.  At the spec's own example
(three qualifying jobs with items 100, 200 and 300, threshold 0.9) the
as-written variant raises `NameError` with no API call made, while with the
two lookups read as the documented settings it returns
`ceil(200 * 0.9) = 180` exactly as claimed. -/
theorem C5_threshold_bug :
    get_threshold_strict sC5 none apiItems 3 = .raised .nameError [] ∧
    get_threshold sC5 none apiItems 3 = .ok 180 [⟨0, 3, 3, 3⟩] := by
  refine ⟨rfl, ?_⟩
  have h := get_threshold_ok_mean sC5 none apiItems 3 [j100, j200, j300]
    [⟨0, 3, 3, 3⟩] (by norm_num [sC5]) (by simp) (by decide)
  rw [h]
  norm_num [jobsMean, sC5, j100, j200, j300]

/-- C6: for every configured desired tag list and every current-job tag list
(successfully parsed from the environment), the resolved tag filter is the
sorted, duplicate-free intersection of the two sets; if either list is empty
the result is empty; and an empty resolved list makes the `has_tag` API
parameter `None`. -/
theorem C6_tags_intersection (desired ts : List String) :
    (∃ l, get_tags_to_filter desired (some (.ok (some ts))) = .ok l ∧
      l.Sorted (fun a b => a ≤ b) ∧ l.Nodup ∧
      (∀ t, t ∈ l ↔ t ∈ desired ∧ t ∈ ts)) ∧
    (desired = [] ∨ ts = [] →
      get_tags_to_filter desired (some (.ok (some ts))) = .ok []) ∧
    hasTagParam [] = none := by
  refine ⟨?_, ?_, rfl⟩
  · by_cases hd : desired.isEmpty = true
    · refine ⟨[], by simp [get_tags_to_filter, hd], by simp, by simp, ?_⟩
      intro t
      rw [List.isEmpty_iff] at hd
      simp [hd]
    · rw [Bool.not_eq_true] at hd
      by_cases ht : ts.isEmpty = true
      · refine ⟨[], by simp [get_tags_to_filter, hd, ht], by simp, by simp, ?_⟩
        intro t
        rw [List.isEmpty_iff] at ht
        simp [ht]
      · rw [Bool.not_eq_true] at ht
        refine ⟨sortTags ((desired.filter (fun t => ts.contains t)).dedup),
          by simp [get_tags_to_filter, hd, ht], sortTags_sorted _,
          sortTags_nodup (List.nodup_dedup _), ?_⟩
        intro t
        rw [sortTags_mem]
        simp [List.mem_dedup, List.mem_filter]
  · rintro (h | h) <;> subst h
    · rfl
    · simp [get_tags_to_filter]

/-- C6 witness: desired tags `a, b` and current tags `b, c` resolve to the
single sorted tag `b`; an empty side yields the empty filter. -/
theorem C6_witness :
    ((["x"] : List String) = [] ∨ ([] : List String) = []) ∧
    get_tags_to_filter ["x"] (some (.ok (some []))) = .ok [] ∧
    get_tags_to_filter ["a", "b"] (some (.ok (some ["b", "c"]))) = .ok ["b"] :=
  ⟨Or.inr rfl, (C6_tags_intersection ["x"] []).2.1 (Or.inr rfl), rfl⟩

/-- C7 counterexample: a present but malformed environment blob does not
yield an empty tag set — with a non-empty desired tag list the `json.loads`
failure propagates out of `_get_tags_to_filter` instead. -/
theorem C7_counterexample :
    get_tags_to_filter ["a"] (some (.error ())) = .error () ∧
    (Except.error () : Except Unit (List String)) ≠ .ok [] :=
  ⟨rfl, by simp⟩

/-- C7 (amended): when the environment blob is absent the tag resolution
yields the empty tag set without error; when the blob is present but fails
to parse, the parse error propagates — except that with an empty desired tag
list the environment is never consulted and the result is empty. -/
theorem C7_env_amended (desired : List String) :
    get_tags_to_filter desired none = .ok [] ∧
    (desired = [] → ∀ e : Except Unit (Option (List String)),
      get_tags_to_filter desired (some e) = .ok []) ∧
    (desired ≠ [] → get_tags_to_filter desired (some (.error ())) = .error ()) := by
  refine ⟨?_, ?_, ?_⟩
  · cases desired <;> rfl
  · rintro rfl e
    rfl
  · intro h
    cases desired with
    | nil => exact absurd rfl h
    | cons a l => rfl

/-- C7 witness: with desired tag `a`, an absent blob yields the empty tag
set and a malformed blob raises. -/
theorem C7_witness :
    ((["a"] : List String) ≠ []) ∧
    get_tags_to_filter ["a"] (some (.error ())) = .error () ∧
    get_tags_to_filter ["a"] none = .ok [] :=
  ⟨by decide, (C7_env_amended ["a"]).2.2 (by decide), (C7_env_amended ["a"]).1⟩

theorem get_threshold_empty_zeroDiv (s : Settings) (env : EnvT) (api : Api)
    (fuel : Nat) (calls : List CallRec)
    (_hN : 0 < s.jobsComparison.getD 0)
    (_hthr : 0 < s.threshold.getD 0)
    (h : get_jobs s env api (s.states.getD ["finished"])
        (s.jobsComparison.getD 0) fuel = .ok [] calls) :
    get_threshold s env api fuel = .raised .zeroDivision calls := by
  unfold get_threshold
  rw [h]
  rfl

/-- C8: the claim correctly describes the division by zero of the mean
computation on zero qualifying jobs, but the monitors `get_threshold` as
written never reaches that computation: `_get_jobs` raises `NameError` on
the undefined argument-setting constants first.  On a concrete input with
positive target and threshold and a store with no records, the as-written
variant raises `NameError` with no API call, while with the two lookups read
as the documented settings the fetch returns zero qualifying jobs and the
mean computation raises the division-by-zero error the claim describes
(proved in general by `get_threshold_empty_zeroDiv`). -/
theorem C8_division_bug :
    get_threshold_strict sC8 none apiEmpty 2 = .raised .nameError [] ∧
    get_threshold sC8 none apiEmpty 2 = .raised .zeroDivision [⟨0, 1, 0, 0⟩] :=
  ⟨rfl, get_threshold_empty_zeroDiv sC8 none apiEmpty 2 [⟨0, 1, 0, 0⟩]
    (by norm_num [sC8]) (by norm_num [sC8]) (by decide)⟩

/-- C9: with the argument filter disabled the pagination loops of the two
source variants agree on every input, and the two `get_threshold` bodies
agree; but the monitors variant as written never gets that far: its
`_get_jobs` resolves the undefined module constants
`SPIDERMON_JOBS_COMPARISON_ARGUMENTS` and
`SPIDERMON_JOBS_COMPARISON_ARGUMENTS_ENABLED` and raises `NameError`, while
the plain variant returns its job list — exhibited on a concrete input. -/
theorem C9_variants_equivalence :
    (∀ (api : Api) (states tags crs : List String) (args : Dict) (N : Int)
      (fuel start : Nat) (total : List Job),
      getJobsLoop api states tags crs false args N fuel start total =
        getJobsLoopPlain api states tags crs N fuel start total) ∧
    (∀ (jc : Option Int) (th : Option ℚ) (sts : Option (List String))
      (tg crs : List String) (ar : Dict) (env : EnvT) (api : Api) (fuel : Nat),
      get_threshold ⟨jc, th, sts, tg, crs, ar, false⟩ env api fuel =
        get_threshold_plain ⟨jc, th, sts, tg, crs, ar, false⟩ env api fuel) ∧
    get_jobs_strict sNone none apiEmpty ["finished"] 1 2 = .raised .nameError [] ∧
    get_jobs_plain sNone none apiEmpty ["finished"] 1 2 = .ok [] [⟨0, 1, 0, 0⟩] := by
  refine ⟨fun api states tags crs args N fuel start total =>
      getJobsLoop_false_eq_plain api states tags crs args N fuel start total,
    ?_, rfl, by decide⟩
  intro jc th sts tg crs ar env api fuel
  unfold get_threshold get_threshold_plain get_jobs get_jobs_plain
  rw [get_tags_plain_eq]
  dsimp only
  cases hcase : get_tags_to_filter tg env with
  | error e => rfl
  | ok tags => simp only [getJobsLoop_false_eq_plain]

/-- C10: against a remote store holding any finite list of records (each
request returns at most the requested count, from the start offset), the
pagination loop finishes with fuel `length + 1`: every continued iteration
consumes a full page of 1000 records and strictly advances the start offset,
so the loop never runs out of fuel, whatever the filters and target. -/
theorem C10_pagination_terminates (db : List Job) (states tags crs : List String)
    (en : Bool) (args : Dict) (N : Int) :
    (getJobsLoop (dbApi db) states tags crs en args N (db.length + 1) 0 []).completed
      = true :=
  getJobsLoop_db_completed db states tags crs en args N (db.length + 1) 0 []
    (Nat.lt_succ_of_le (Nat.sub_le _ _))
